import Mathlib

/-!
# Verification of the GCS file-concatenation cloud function

Shallow embedding of `src/concatenate_data_files_in_gcs/main.py`:
the pure naming functions (`is_header_file`, `generate_output_file_path`,
`blob_sort_key`) are translated directly; the stateful orchestration
(`main`, `list_bucket_blobs`, `concatenate_blobs`, `delete_blobs`) is
modelled as explicit state passing over a list of stored objects, with
uncaught Python exceptions represented by an `Option PyErr` result.
-/

set_option maxRecDepth 65536

namespace GcsConcat

/-! ## Substring containment — Python's `tag in s` operator -/

/-- `leadsWith p s` is true when the char list `p` is an initial segment of `s`. -/
def leadsWith : List Char → List Char → Bool
  | [], _ => true
  | _ :: _, [] => false
  | a :: p, b :: s => a == b && leadsWith p s

/-- `hasInfix p s` is true when `p` occurs as a contiguous run inside `s`
(Python `p in s` for strings). -/
def hasInfix (p : List Char) : List Char → Bool
  | [] => leadsWith p []
  | c :: s => leadsWith p (c :: s) || hasInfix p s

/-- Python's `tag in file_name` substring test, on Lean strings. -/
def containsTag (s tag : String) : Bool :=
  hasInfix tag.data s.data

/-! ## `is_header_file` — main.py lines 67–76 -/

/-- main.py lines 67–76: a file name is a header file when it contains all
required tags (`"tmp/"`, `"HEADER"`) and none of the forbidden tags
(`"_boxfolder_"`, `"_fileid_"`). -/
def is_header_file (file_name : String) : Bool :=
  let required_tags := ["tmp/", "HEADER"]
  let forbidden_tags := ["_boxfolder_", "_fileid_"]
  let all_required_tags_present := required_tags.all (fun tag => containsTag file_name tag)
  let no_forbidden_tags_present := !(forbidden_tags.any (fun tag => containsTag file_name tag))
  all_required_tags_present && no_forbidden_tags_present

/-! ## The regex of `generate_output_file_path` — main.py lines 78–98

The pattern
`gs://deidentified_site_recruitment_data_prod/([^/]+)/tmp/([^_]+)_deidentified_recruitment_data_box_folder_(\d{12})_file_id_(\d{13})_HEADER_\d*\.csv`
is matched with `re.search`.  Every variable-length greedy piece
(`[^/]+`, `[^_]+`, `\d*`) is followed by a literal whose first character
is excluded from the piece's class, so Python's backtracking search is
equivalent to deterministic maximal munch at each candidate start
position, scanning start positions left to right. -/

/-- Strip an exact literal from the front of the input, or fail. -/
def stripLit : List Char → List Char → Option (List Char)
  | [], s => some s
  | _ :: _, [] => none
  | a :: p, b :: s => if a = b then stripLit p s else none

/-- Greedy one-or-more character-class match (`[^c]+`): take the maximal
run satisfying `p`, failing when it is empty. -/
def munch1 (p : Char → Bool) (s : List Char) : Option (List Char × List Char) :=
  let run := s.takeWhile p
  if run.isEmpty then none else some (run, s.dropWhile p)

/-- Fixed-count character-class match (`\d{n}`): exactly `n` characters
satisfying `p`. -/
def takeCount (n : Nat) (p : Char → Bool) (s : List Char) : Option (List Char × List Char) :=
  let run := s.take n
  if run.length = n && run.all p then some (run, s.drop n) else none

/-- Anchored match of the header-key pattern at the start of `s`,
returning capture groups 1–4 (site folder, site name, box-folder id,
file id). -/
def matchHeaderAt (s : List Char) : Option (String × String × String × String) := do
  let s ← stripLit "gs://deidentified_site_recruitment_data_prod/".data s
  let (g1, s) ← munch1 (fun c => c != '/') s
  let s ← stripLit "/tmp/".data s
  let (g2, s) ← munch1 (fun c => c != '_') s
  let s ← stripLit "_deidentified_recruitment_data_box_folder_".data s
  let (g3, s) ← takeCount 12 Char.isDigit s
  let s ← stripLit "_file_id_".data s
  let (g4, s) ← takeCount 13 Char.isDigit s
  let s ← stripLit "_HEADER_".data s
  let s := s.dropWhile Char.isDigit
  let _ ← stripLit ".csv".data s
  pure (⟨g1⟩, ⟨g2⟩, ⟨g3⟩, ⟨g4⟩)

/-- `re.search` semantics: try the anchored match at each start position,
left to right. -/
def searchHeader : List Char → Option (String × String × String × String)
  | [] => matchHeaderAt []
  | c :: s =>
    match matchHeaderAt (c :: s) with
    | some g => some g
    | none => searchHeader s

/-- The f-string of main.py lines 93–94 building the output key from the
four capture groups. -/
def outputTemplate (g1 g2 g3 g4 : String) : String :=
  "deidentified_site_recruitment_data_prod/" ++ g1 ++ "/" ++
    g2 ++ "_deidentified_recruitment_data_boxfolder_" ++ g3 ++ "_fileid_" ++ g4 ++ ".csv"

/-- main.py lines 78–98: search the input for the header-key pattern and
build the output key from the captures; `none` models Python's `None`. -/
def generate_output_file_path (input_file_path : String) : Option String :=
  match searchHeader input_file_path.data with
  | some (g1, g2, g3, g4) => some (outputTemplate g1 g2 g3 g4)
  | none => none

/-! ## Path helpers — `os.path.split`, `str.split('/')`, `os.path.join`
(posix semantics, as used in main.py lines 39–44) -/

/-- The head component of `posixpath.split`: everything before the last
`'/'`, with trailing slashes stripped unless the head is empty or all
slashes. -/
def pySplitHeadL (s : List Char) : List Char :=
  let headPart := ((s.reverse.dropWhile (fun c => c != '/')).reverse)
  if headPart.isEmpty then headPart
  else if headPart.all (fun c => c == '/') then headPart
  else (headPart.reverse.dropWhile (fun c => c == '/')).reverse

/-- `os.path.split(p)[0]` for posix paths. -/
def pySplitHead (s : String) : String :=
  ⟨pySplitHeadL s.data⟩

/-- `os.path.join(a, b)` for posix paths (two arguments). -/
def posixJoin (a b : String) : String :=
  if leadsWith "/".data b.data then b
  else if a == "" || leadsWith "/".data a.data.reverse then a ++ b
  else a ++ "/" ++ b

/-- Python `str.split('/')`: split at every `'/'`, keeping empty pieces
(`"".split('/') == ['']`). -/
def splitSlash : List Char → List (List Char)
  | [] => [[]]
  | c :: s =>
    let r := splitSlash s
    if c == '/' then [] :: r
    else
      match r with
      | [] => [[c]]
      | h :: t => (c :: h) :: t

/-- main.py lines 39–43: `folder_path.split('/')` where
`folder_path, _ = os.path.split(bucket + "/" + name)`. -/
def pathParts (bucket name : String) : List String :=
  (splitSlash (pySplitHead (bucket ++ "/" ++ name)).data).map (fun l => ⟨l⟩)

/-- Number of components of `pathParts`; Python's `parts[-2]` raises
`IndexError` when this is below 2. -/
def partsCount (bucket name : String) : Nat :=
  (pathParts bucket name).length

/-- main.py line 44: `os.path.join(parts[-2], parts[-1])`, the
`<site>/tmp` listing prefix (meaningful when `2 ≤ partsCount`). -/
def siteTmpFolderOf (bucket name : String) : String :=
  let parts := pathParts bucket name
  posixJoin (parts.getD (parts.length - 2) "") (parts.getLastD "")

/-! ## Object-store model

A store is a list of objects, each with a bucket, a name (key) and a
byte content.  `StoreOp` records the store API calls the engine issues
(`list_blobs`, `compose`, `delete`); `PyErr` represents an uncaught
Python exception propagating out of `main` — the source has no
`try/except` anywhere except the per-blob one inside `delete_blobs`. -/

/-- One stored object: bucket, key, content bytes. -/
structure Obj where
  bucket : String
  name : String
  content : List Nat
deriving DecidableEq, Repr

/-- The object store: all currently existing objects. -/
abbrev Store := List Obj

/-- A store API call issued by the engine. -/
inductive StoreOp where
  /-- `bucket.list_blobs(prefix=folder)` -/
  | listOp (bucket folder : String)
  /-- `target_blob.compose(source_blobs)` -/
  | composeOp (bucket : String) (sources : List String) (target : String)
  /-- `blob.delete()` (attempted; may fail and be caught) -/
  | deleteOp (bucket name : String)
deriving DecidableEq, Repr

/-- An uncaught Python exception escaping `main`. -/
inductive PyErr where
  /-- `file_object['k']` on a dict missing key `k` -/
  | keyError (k : String)
  /-- indexing an empty or too-short list (`blob_list[0]`, `parts[-2]`) -/
  | indexError
  /-- `bucket.blob(None)`: the storage client rejects a `None` blob name -/
  | valueError
  /-- compose reading a source object that does not exist -/
  | notFound
deriving DecidableEq, Repr

/-! ## Ordering — `blob_sort_key` in `list_bucket_blobs`, main.py
lines 123–129 -/

/-- main.py lines 123–127: sort key `(0, name)` for names containing
`"HEADER"`, else `(1, name)`. -/
def blob_sort_key (blob_name : String) : Nat × String :=
  if containsTag blob_name "HEADER" then (0, blob_name) else (1, blob_name)

/-- Python's `<=` on strings: lexicographic by code point. -/
def charListLE : List Char → List Char → Bool
  | [], _ => true
  | _ :: _, [] => false
  | a :: s, b :: t => if a < b then true else if b < a then false else charListLE s t

/-- Python's `<=` on `(int, str)` tuples, as used by `list.sort(key=...)`. -/
def keyLeB : Nat × String → Nat × String → Bool
  | (i, s), (j, t) => if i < j then true else if j < i then false else charListLE s.data t.data

/-- Boolean comparison of blob names by `blob_sort_key`. -/
def nameLeB (a b : String) : Bool :=
  keyLeB (blob_sort_key a) (blob_sort_key b)

/-- The sort order on blob names induced by `blob_sort_key`. -/
def nameLE (a b : String) : Prop :=
  nameLeB a b = true

instance : DecidableRel nameLE := fun _ _ => instDecidableEqBool _ _

/-- The name order lifted to stored objects (sorting in
`list_bucket_blobs` compares only names). -/
def objLeB (a b : Obj) : Bool :=
  nameLeB a.name b.name

/-- Stable insertion of `a` into `l` before the first element not
below it. -/
def orderedInsertB {α} (le : α → α → Bool) (a : α) : List α → List α
  | [] => [a]
  | b :: l => if le a b then a :: b :: l else b :: orderedInsertB le a l

/-- Stable insertion sort — the reference model for Python's stable
`list.sort(key=...)`. -/
def insertionSortB {α} (le : α → α → Bool) : List α → List α
  | [] => []
  | a :: l => orderedInsertB le a (insertionSortB le l)

/-- The ordering applied before concatenation (main.py line 129), on
name lists. -/
def orderNames (l : List String) : List String :=
  insertionSortB nameLeB l

/-- main.py lines 100–131 without the network: all objects of `bucket`
whose name starts with `folder` (GCS `list_blobs(prefix=...)`), sorted
by `blob_sort_key`. -/
def listBucketBlobs (bucket folder : String) (st : Store) : List Obj :=
  insertionSortB objLeB
    (st.filter (fun o => o.bucket == bucket && leadsWith folder.data o.name.data))

/-! ## Store primitives and the stateful functions -/

/-- Delete the object `(bucket, name)` from the store (no-op when absent). -/
def removeObj (st : Store) (bucket name : String) : Store :=
  st.filter (fun o => !(o.bucket == bucket && o.name == name))

/-- Create or overwrite the object `(bucket, name)` with `content`. -/
def setObj (st : Store) (bucket name : String) (content : List Nat) : Store :=
  removeObj st bucket name ++ [⟨bucket, name, content⟩]

/-- Content of the object `(bucket, name)`, when it exists. -/
def getContent (st : Store) (bucket name : String) : Option (List Nat) :=
  (st.find? (fun o => o.bucket == bucket && o.name == name)).map Obj.content

/-- Contents of all the given objects read from the current store, or
`none` if any is missing. -/
def readAll (st : Store) : List Obj → Option (List (List Nat))
  | [] => some []
  | b :: rest =>
    match getContent st b.bucket b.name, readAll st rest with
    | some c, some cs => some (c :: cs)
    | _, _ => none

/-- main.py lines 133–154 (`concatenate_blobs`).  Faithful order of
failure: `blob_list[0]` raises `IndexError` on an empty list (line 143)
before `bucket.blob(target_blob_name)` raises on a `None` target
(line 149); then the server-side compose writes the concatenation of
the sources' bytes to the target key in the first blob's bucket.
Returns the new store and the compose call record. -/
def concatenateBlobs (blob_list : List Obj) (target : Option String) (st : Store) :
    Except PyErr (Store × StoreOp) :=
  match blob_list with
  | [] => .error .indexError
  | b0 :: _ =>
    match target with
    | none => .error .valueError
    | some tgt =>
      match readAll st blob_list with
      | none => .error .notFound
      | some cs =>
        .ok (setObj st b0.bucket tgt cs.flatten,
             .composeOp b0.bucket (blob_list.map (fun b => b.name)) tgt)

/-- main.py lines 156–174 (`delete_blobs`).  Each delete is attempted in
order; a failure (modelled by the oracle `delFail` on the blob name) is
caught and logged, and iteration continues.  Returns the final store,
the names whose delete succeeded (in attempt order), and the attempted
delete calls. -/
def deleteBlobs (delFail : String → Bool) : List Obj → Store → Store × List String × List StoreOp
  | [], st => (st, [], [])
  | b :: rest, st =>
    if delFail b.name then
      let r := deleteBlobs delFail rest st
      (r.1, r.2.1, .deleteOp b.bucket b.name :: r.2.2)
    else
      let r := deleteBlobs delFail rest (removeObj st b.bucket b.name)
      (r.1, b.name :: r.2.1, .deleteOp b.bucket b.name :: r.2.2)

/-- The triggering event record; `main` reads only `bucket` and `name`,
modelled as optional to capture dict-key absence. -/
structure Event where
  bucket? : Option String
  name? : Option String

/-- main.py lines 17–65 (`main`).  Returns the store API calls issued,
the resulting store, and the uncaught exception if one escaped:
1. `file_object['name']` (line 25) — `KeyError` when absent;
2. `is_header_file` gate (line 27) — non-headers return `None` at once;
3. `file_object['bucket']` (line 34) — `KeyError` when absent;
4. `parts[-2]` (line 44) — `IndexError` when below two components;
5. `generate_output_file_path` (line 48) — its `None` result is NOT
   checked;
6. `list_bucket_blobs` (line 54), `concatenate_blobs` (line 58),
   `delete_blobs` (line 62). -/
def runMain (delFail : String → Bool) (event : Event) (st : Store) :
    List StoreOp × Store × Option PyErr :=
  match event.name? with
  | none => ([], st, some (.keyError "name"))
  | some nm =>
    if is_header_file nm then
      match event.bucket? with
      | none => ([], st, some (.keyError "bucket"))
      | some bk =>
        if 2 ≤ partsCount bk nm then
          let stf := siteTmpFolderOf bk nm
          let output := generate_output_file_path (bk ++ "/" ++ nm)
          let blobs := listBucketBlobs bk stf st
          match concatenateBlobs blobs output st with
          | .error e => ([.listOp bk stf], st, some e)
          | .ok (st2, cop) =>
            let r := deleteBlobs delFail blobs st2
            (.listOp bk stf :: cop :: r.2.2, r.1, none)
        else ([], st, some .indexError)
    else ([], st, none)

/-- Delete-failure oracle for runs where every delete succeeds. -/
def noFail : String → Bool := fun _ => false

/-! ## The documented key convention (spec §6), independent of the code

`specStagingHeaderKeyB` follows the spec's words for the staging header
key convention
`<container>/<site_folder>/tmp/<site_name>_deidentified_recruitment_data_box_folder_<12 digits>_file_id_<13 digits>_HEADER_<digits>.csv`,
to be compared with the code's `generate_output_file_path`. -/

/-- Checker for the documented staging header key convention: container
and site-folder segments, a `tmp` segment, and the documented file-name
shape, spanning the whole key. -/
def specStagingHeaderKeyAux (s : List Char) : Option Unit := do
  let (_, s) ← munch1 (fun c => c != '/') s
  let s ← stripLit "/".data s
  let (_, s) ← munch1 (fun c => c != '/') s
  let s ← stripLit "/tmp/".data s
  let (_, s) ← munch1 (fun c => c != '_' && c != '/') s
  let s ← stripLit "_deidentified_recruitment_data_box_folder_".data s
  let (_, s) ← takeCount 12 Char.isDigit s
  let s ← stripLit "_file_id_".data s
  let (_, s) ← takeCount 13 Char.isDigit s
  let s ← stripLit "_HEADER_".data s
  let (_, s) ← munch1 Char.isDigit s
  let s ← stripLit ".csv".data s
  if s.isEmpty then some () else none

/-- The documented staging header key convention (spec §6), as a whole-key
match. -/
def specStagingHeaderKeyB (k : String) : Bool :=
  (specStagingHeaderKeyAux k.data).isSome

/-! ## Concrete data: the example event shipped at the bottom of main.py
(lines 193–194), with a staging set of one header and two body objects -/

/-- Bucket of the example event in main.py line 193. -/
def exBucket : String := "deidentified_site_recruitment_data_prod"

/-- Object name of the example event in main.py line 193. -/
def exName : String :=
  "KaiserPermanente-Hawaii/tmp/KaiserPermanente-Hawaii_deidentified_recruitment_data_box_folder_227960879930_file_id_1318226785372_HEADER_000000000000.csv"

/-- A companion body-object name in the same staging prefix. -/
def exBodyName (i : String) : String :=
  "KaiserPermanente-Hawaii/tmp/KaiserPermanente-Hawaii_deidentified_recruitment_data_box_folder_227960879930_file_id_1318226785372_BODY_00000000000" ++ i ++ ".csv"

/-- The canonical output key the documentation promises for `exName`. -/
def exCanonicalKey : String :=
  "deidentified_site_recruitment_data_prod/KaiserPermanente-Hawaii/KaiserPermanente-Hawaii_deidentified_recruitment_data_boxfolder_227960879930_fileid_1318226785372.csv"

/-- The example triggering event. -/
def exEvent : Event := ⟨some exBucket, some exName⟩

/-- Store holding the example staging set: the header and two body
objects, nothing else. -/
def exStore0 : Store :=
  [⟨exBucket, exName, [0]⟩, ⟨exBucket, exBodyName "1", [2]⟩, ⟨exBucket, exBodyName "0", [1]⟩]

/-! ## Helper lemmas on substring containment -/

theorem leadsWith_nil (s : List Char) : leadsWith [] s = true := by
  cases s <;> rfl

theorem leadsWith_append {p s : List Char} (t : List Char) (h : leadsWith p s = true) :
    leadsWith p (s ++ t) = true := by
  induction p generalizing s with
  | nil => exact leadsWith_nil _
  | cons a p ih =>
    cases s with
    | nil => simp [leadsWith] at h
    | cons b s =>
      simp only [leadsWith, Bool.and_eq_true] at h ⊢
      exact ⟨h.1, ih h.2⟩

theorem hasInfix_nil_pat (t : List Char) : hasInfix [] t = true := by
  cases t with
  | nil => rfl
  | cons c t => simp [hasInfix, leadsWith]

theorem hasInfix_append_right {p t : List Char} (s : List Char) (h : hasInfix p t = true) :
    hasInfix p (s ++ t) = true := by
  induction s with
  | nil => simpa using h
  | cons c s ih =>
    simp only [List.cons_append, hasInfix, Bool.or_eq_true]
    exact Or.inr ih

theorem hasInfix_append_left {p s : List Char} (t : List Char) (h : hasInfix p s = true) :
    hasInfix p (s ++ t) = true := by
  induction s with
  | nil =>
    cases p with
    | nil => simpa using hasInfix_nil_pat t
    | cons a p => simp [hasInfix, leadsWith] at h
  | cons c s ih =>
    simp only [hasInfix, Bool.or_eq_true] at h
    rcases h with h | h
    · simp only [List.cons_append, hasInfix, Bool.or_eq_true]
      exact Or.inl (leadsWith_append t h)
    · simp only [List.cons_append, hasInfix, Bool.or_eq_true]
      exact Or.inr (ih h)

/-! ## Order lemmas for the sort comparators -/
theorem charListLE_total : ∀ s t, charListLE s t = true ∨ charListLE t s = true := by
  intro s
  induction s with
  | nil => intro t; left; cases t <;> rfl
  | cons a s ih =>
    intro t
    cases t with
    | nil => right; rfl
    | cons b t =>
      rcases lt_trichotomy a b with h | h | h
      · left; simp [charListLE, h]
      · subst h
        rcases ih t with h2 | h2
        · left; simp [charListLE, lt_irrefl, h2]
        · right; simp [charListLE, lt_irrefl, h2]
      · right; simp [charListLE, h]

theorem charListLE_of_eq_false {s t : List Char} (h : charListLE s t = false) :
    charListLE t s = true := by
  rcases charListLE_total s t with h2 | h2
  · rw [h] at h2; exact absurd h2 (by simp)
  · exact h2

theorem charListLE_trans : ∀ {s t u}, charListLE s t = true → charListLE t u = true →
    charListLE s u = true := by
  intro s
  induction s with
  | nil => intro t u _ _; cases u <;> rfl
  | cons a s ih =>
    intro t u h1 h2
    cases t with
    | nil => simp [charListLE] at h1
    | cons b t =>
      cases u with
      | nil => simp [charListLE] at h2
      | cons c u =>
        by_cases hab : a < b
        · -- a < b; need a < c or at least first test true
          by_cases hbc : b < c
          · simp [charListLE, lt_trans hab hbc]
          · by_cases hcb : c < b
            · simp [charListLE, hbc, hcb] at h2
            · have hbc2 : b = c := le_antisymm (not_lt.mp hcb) (not_lt.mp hbc)
              subst hbc2
              simp [charListLE, hab]
        · by_cases hba : b < a
          · simp [charListLE, hab, hba] at h1
          · have hab2 : a = b := le_antisymm (not_lt.mp hba) (not_lt.mp hab)
            subst hab2
            simp only [charListLE, if_neg (lt_irrefl a)] at h1
            by_cases hac : a < c
            · simp [charListLE, hac]
            · by_cases hca : c < a
              · simp [charListLE, hac, hca] at h2
              · have hac2 : a = c := le_antisymm (not_lt.mp hca) (not_lt.mp hac)
                subst hac2
                simp only [charListLE, if_neg (lt_irrefl a)] at h2 ⊢
                exact ih h1 h2

theorem charListLE_antisymm : ∀ {s t}, charListLE s t = true → charListLE t s = true → s = t := by
  intro s
  induction s with
  | nil => intro t _ h2; cases t with
    | nil => rfl
    | cons b t => simp [charListLE] at h2
  | cons a s ih =>
    intro t h1 h2
    cases t with
    | nil => simp [charListLE] at h1
    | cons b t =>
      by_cases hab : a < b
      · simp [charListLE, lt_asymm hab, hab] at h2
      · by_cases hba : b < a
        · simp [charListLE, hab, hba] at h1
        · have hab2 : a = b := le_antisymm (not_lt.mp hba) (not_lt.mp hab)
          subst hab2
          simp only [charListLE, if_neg (lt_irrefl a)] at h1 h2
          rw [ih h1 h2]

/-! Bridge to the lexicographic order on char lists / strings -/
theorem charListLE_iff_not_lt : ∀ s t : List Char, charListLE s t = true ↔ ¬ t < s := by
  intro s
  induction s with
  | nil =>
    intro t
    constructor
    · intro _ h; cases h
    · intro _; cases t <;> rfl
  | cons a s ih =>
    intro t
    cases t with
    | nil =>
      simp only [charListLE]
      constructor
      · simp
      · intro h; exact absurd (List.nil_lt_cons a s) h
    | cons b t =>
      by_cases hab : a < b
      · simp only [charListLE, if_pos hab, true_iff]
        intro h
        cases h with
        | cons h2 => exact absurd hab (lt_irrefl a)
        | rel h2 => exact absurd (lt_trans hab h2) (lt_irrefl a)
      · by_cases hba : b < a
        · simp only [charListLE, if_neg hab, if_pos hba]
          constructor
          · intro h; exact absurd h (by simp)
          · intro h; exact absurd (List.Lex.rel hba) h
        · have hab2 : a = b := le_antisymm (not_lt.mp hba) (not_lt.mp hab)
          subst hab2
          simp only [charListLE, if_neg (lt_irrefl a)]
          rw [ih t]
          constructor
          · intro h hlt
            cases hlt with
            | cons h2 => exact h h2
            | rel h2 => exact absurd h2 (lt_irrefl a)
          · intro h hlt
            exact h (List.Lex.cons hlt)

theorem charListLE_of_str_lt {a b : String} (h : a < b) : charListLE a.data b.data = true := by
  rw [charListLE_iff_not_lt]
  intro hba
  have h2 : b < a := String.lt_iff_toList_lt.mpr hba
  exact absurd (lt_trans h h2) (lt_irrefl a)

theorem charListLE_rev_of_str_lt {a b : String} (h : a < b) :
    charListLE b.data a.data = false := by
  cases hc : charListLE b.data a.data
  · rfl
  · exfalso
    rw [charListLE_iff_not_lt] at hc
    exact hc (String.lt_iff_toList_lt.mp h)

/-! Order facts for the tuple comparator -/
theorem keyLeB_total (x y : Nat × String) : keyLeB x y = true ∨ keyLeB y x = true := by
  rcases x with ⟨i, s⟩
  rcases y with ⟨j, t⟩
  rcases Nat.lt_trichotomy i j with h | h | h
  · left; simp [keyLeB, h]
  · subst h
    simp only [keyLeB, if_neg (lt_irrefl i)]
    exact charListLE_total s.data t.data
  · right; simp [keyLeB, h]

theorem keyLeB_trans {x y z : Nat × String} (h1 : keyLeB x y = true) (h2 : keyLeB y z = true) :
    keyLeB x z = true := by
  rcases x with ⟨i, s⟩
  rcases y with ⟨j, t⟩
  rcases z with ⟨k, u⟩
  simp only [keyLeB] at h1 h2 ⊢
  by_cases hij : i < j
  · by_cases hjk : j < k
    · simp [Nat.lt_trans hij hjk]
    · by_cases hkj : k < j
      · simp [hjk, hkj] at h2
      · have : j = k := Nat.le_antisymm (Nat.not_lt.mp hkj) (Nat.not_lt.mp hjk)
        subst this
        simp [hij]
  · by_cases hji : j < i
    · simp [hij, hji] at h1
    · have : i = j := Nat.le_antisymm (Nat.not_lt.mp hji) (Nat.not_lt.mp hij)
      subst this
      simp only [if_neg (lt_irrefl i)] at h1
      by_cases hik : i < k
      · simp [hik]
      · by_cases hki : k < i
        · simp [hik, hki] at h2
        · have : i = k := Nat.le_antisymm (Nat.not_lt.mp hki) (Nat.not_lt.mp hik)
          subst this
          simp only [if_neg (lt_irrefl i)] at h2 ⊢
          exact charListLE_trans h1 h2

theorem keyLeB_antisymm_snd {x y : Nat × String} (h1 : keyLeB x y = true)
    (h2 : keyLeB y x = true) : x.2 = y.2 := by
  rcases x with ⟨i, s⟩
  rcases y with ⟨j, t⟩
  simp only [keyLeB] at h1 h2
  by_cases hij : i < j
  · simp [hij, Nat.lt_asymm hij] at h2
  · by_cases hji : j < i
    · simp [hij, hji] at h1
    · simp only [if_neg hij, if_neg hji] at h1 h2
      have hdata : s.data = t.data := charListLE_antisymm h1 h2
      cases s; cases t
      exact congrArg String.mk hdata

theorem blob_sort_key_snd (a : String) : (blob_sort_key a).2 = a := by
  unfold blob_sort_key
  split <;> rfl

instance : IsTotal String nameLE :=
  ⟨fun a b => keyLeB_total (blob_sort_key a) (blob_sort_key b)⟩

instance : IsTrans String nameLE :=
  ⟨fun _ _ _ h1 h2 => keyLeB_trans h1 h2⟩

instance : IsAntisymm String nameLE :=
  ⟨fun a b h1 h2 => by
    have h := keyLeB_antisymm_snd h1 h2
    rwa [blob_sort_key_snd, blob_sort_key_snd] at h⟩

/-! Bridge from the executable sort to the Mathlib sort -/
theorem orderedInsertB_name_eq (a : String) (l : List String) :
    orderedInsertB nameLeB a l = List.orderedInsert nameLE a l := by
  induction l with
  | nil => rfl
  | cons b l ih =>
    simp only [orderedInsertB, List.orderedInsert, ih]
    rfl

theorem orderNames_eq_insertionSort (l : List String) :
    orderNames l = List.insertionSort nameLE l := by
  induction l with
  | nil => rfl
  | cons a l ih =>
    simp only [orderNames, insertionSortB, List.insertionSort] at ih ⊢
    rw [ih, orderedInsertB_name_eq]

theorem orderNames_perm (l : List String) : (orderNames l).Perm l := by
  rw [orderNames_eq_insertionSort]
  exact List.perm_insertionSort nameLE l

theorem orderNames_sorted (l : List String) : (orderNames l).Sorted nameLE := by
  rw [orderNames_eq_insertionSort]
  exact List.sorted_insertionSort nameLE l

/-! Uniqueness of the element counted once -/
theorem countP_one_unique {α} (p : α → Bool) :
    ∀ (l : List α), l.countP p = 1 → ∀ x ∈ l, ∀ y ∈ l, p x = true → p y = true → x = y := by
  intro l
  induction l with
  | nil => intro _ x hx; exact absurd hx (List.not_mem_nil x)
  | cons a l ih =>
    intro hcount x hx y hy hpx hpy
    rw [List.countP_cons] at hcount
    by_cases hpa : p a = true
    · rw [if_pos hpa] at hcount
      have hzero : l.countP p = 0 := by omega
      have hnone : ∀ z ∈ l, ¬ p z = true := List.countP_eq_zero.mp hzero
      have hxa : x = a := by
        rcases List.mem_cons.mp hx with h | h
        · exact h
        · exact absurd hpx (hnone x h)
      have hya : y = a := by
        rcases List.mem_cons.mp hy with h | h
        · exact h
        · exact absurd hpy (hnone y h)
      rw [hxa, hya]
    · rw [if_neg hpa] at hcount
      have hxl : x ∈ l := by
        rcases List.mem_cons.mp hx with h | h
        · exact absurd (h ▸ hpx) hpa
        · exact h
      have hyl : y ∈ l := by
        rcases List.mem_cons.mp hy with h | h
        · exact absurd (h ▸ hpy) hpa
        · exact h
      exact ih hcount x hxl y hyl hpx hpy


/-! ## Claim theorems -/

/-- **C1** — the claim fails on the code: the repository's own example
event has an object key matching the documented staging header
convention (first conjunct), and `is_header_file` classifies it as a
header (second conjunct), yet `generate_output_file_path` applied to
the full path the engine constructs (`bucket + "/" + name`) returns
`none` (third conjunct), because the regex demands a literal `gs://`
scheme prefix that the constructed path never has; prefixing `gs://`
by hand makes the very same key produce exactly the canonical output
key (fourth conjunct). -/
theorem C1_code_bug :
    specStagingHeaderKeyB (exBucket ++ "/" ++ exName) = true ∧
    is_header_file exName = true ∧
    generate_output_file_path (exBucket ++ "/" ++ exName) = none ∧
    generate_output_file_path ("gs://" ++ exBucket ++ "/" ++ exName) = some exCanonicalKey := by
  decide

/-- **C2** — the claim fails on the code: on the example header event
with a full staging set, the first invocation already aborts with an
uncaught `ValueError` (composing to the `None` output key produced by
the `gs://` regex mismatch) after the list call, leaving the store
unchanged; the second invocation is bit-identical; after both runs the
store holds zero canonical (`_boxfolder_`-tagged) outputs and the
staging prefix is still fully populated — not "exactly one output and
an empty prefix with at most an EmptyListing on the second pass". -/
theorem C2_code_bug :
    runMain noFail exEvent exStore0 =
      ([.listOp exBucket "KaiserPermanente-Hawaii/tmp"], exStore0, some .valueError) ∧
    runMain noFail exEvent ((runMain noFail exEvent exStore0).2.1) =
      runMain noFail exEvent exStore0 ∧
    (exStore0.filter (fun o => containsTag o.name "_boxfolder_")).length = 0 ∧
    (listBucketBlobs exBucket (siteTmpFolderOf exBucket exName) exStore0).length = 3 := by
  decide

/-- **C3** — confirmed: for a list of names with exactly one name
containing `"HEADER"`, the ordering applied before concatenation places
that name first (first conjunct); any two non-header names in the output
appear in lexicographic order (second conjunct); and the ordering is a
function of the names only — any permutation of the input produces the
identical output (third conjunct). -/
theorem C3_ordering (l ordered2 : List String) (hd a b : String) (i j : Nat) :
    (l.countP (fun n => containsTag n "HEADER") = 1 → hd ∈ l →
        containsTag hd "HEADER" = true → (orderNames l).head? = some hd) ∧
    (i < (orderNames l).length → j < (orderNames l).length →
        (orderNames l).getD i "" = a → (orderNames l).getD j "" = b →
        containsTag a "HEADER" = false → containsTag b "HEADER" = false →
        a < b → i < j) ∧
    (l.Perm ordered2 → orderNames l = orderNames ordered2) := by
  refine ⟨?_, ?_, ?_⟩
  · intro hcount hmem hhd
    rcases horder : orderNames l with _ | ⟨h0, rest⟩
    · exfalso
      have : hd ∈ orderNames l := ((orderNames_perm l).mem_iff).mpr hmem
      rw [horder] at this
      exact absurd this (List.not_mem_nil hd)
    · have hsorted := orderNames_sorted l
      rw [horder] at hsorted
      have hmemo : hd ∈ h0 :: rest := by
        have : hd ∈ orderNames l := ((orderNames_perm l).mem_iff).mpr hmem
        rwa [horder] at this
      have h0mem : h0 ∈ l := by
        have : h0 ∈ orderNames l := by rw [horder]; exact List.mem_cons_self h0 rest
        exact ((orderNames_perm l).mem_iff).mp this
      rcases List.mem_cons.mp hmemo with heq | hrest
      · rw [heq]
        rfl
      · have hle : nameLE h0 hd := (List.sorted_cons.mp hsorted).1 hd hrest
        cases hh0 : containsTag h0 "HEADER"
        · exfalso
          unfold nameLE nameLeB at hle
          rw [show blob_sort_key h0 = (1, h0) by simp [blob_sort_key, hh0],
            show blob_sort_key hd = (0, hd) by simp [blob_sort_key, hhd]] at hle
          simp [keyLeB] at hle
        · have : h0 = hd :=
            countP_one_unique (fun n => containsTag n "HEADER") l hcount h0 h0mem hd hmem hh0 hhd
          rw [this]
          rfl
  · intro hi hj hga hgb hna hnb hab
    by_contra hij
    have hji : j ≤ i := Nat.le_of_not_lt hij
    rcases Nat.eq_or_lt_of_le hji with heq | hlt
    · subst heq
      rw [hga] at hgb
      subst hgb
      exact absurd hab (lt_irrefl a)
    · have hsorted := orderNames_sorted l
      have hrel : nameLE ((orderNames l).get ⟨j, hj⟩) ((orderNames l).get ⟨i, hi⟩) :=
        List.Sorted.rel_get_of_lt hsorted hlt
      rw [show (orderNames l).get ⟨j, hj⟩ = b by rw [← hgb, List.getD_eq_getElem _ _ hj]; rfl,
        show (orderNames l).get ⟨i, hi⟩ = a by rw [← hga, List.getD_eq_getElem _ _ hi]; rfl] at hrel
      unfold nameLE nameLeB at hrel
      rw [show blob_sort_key b = (1, b) by simp [blob_sort_key, hnb],
        show blob_sort_key a = (1, a) by simp [blob_sort_key, hna]] at hrel
      simp only [keyLeB, if_neg (lt_irrefl 1)] at hrel
      rw [charListLE_rev_of_str_lt hab] at hrel
      exact absurd hrel (by simp)
  · intro hperm
    exact List.eq_of_perm_of_sorted
      ((orderNames_perm l).trans (hperm.trans (orderNames_perm ordered2).symm))
      (orderNames_sorted l) (orderNames_sorted ordered2)

/-- Witness for C3: the three parts of the ordering theorem applied to a
concrete three-element listing and one of its permutations. -/
theorem C3_witness :
    (orderNames ["b.csv", "a_HEADER.csv", "c.csv"]).head? = some "a_HEADER.csv" ∧
    (1 : Nat) < 2 ∧
    orderNames ["b.csv", "a_HEADER.csv", "c.csv"] =
      orderNames ["c.csv", "b.csv", "a_HEADER.csv"] := by
  refine ⟨(C3_ordering ["b.csv", "a_HEADER.csv", "c.csv"] ["c.csv", "b.csv", "a_HEADER.csv"]
      "a_HEADER.csv" "b.csv" "c.csv" 1 2).1 (by decide) (by decide) (by decide),
    (C3_ordering ["b.csv", "a_HEADER.csv", "c.csv"] ["c.csv", "b.csv", "a_HEADER.csv"]
      "a_HEADER.csv" "b.csv" "c.csv" 1 2).2.1 (by decide) (by decide) (by decide) (by decide)
      (by decide) (by decide) (String.lt_iff_toList_lt.mpr (List.Lex.rel (by decide))),
    (C3_ordering ["b.csv", "a_HEADER.csv", "c.csv"] ["c.csv", "b.csv", "a_HEADER.csv"]
      "a_HEADER.csv" "b.csv" "c.csv" 1 2).2.2 (by decide)⟩

/-- **C4** — confirmed: `is_header_file` returns `true` exactly when the
key contains both `"tmp/"` and `"HEADER"` and contains neither
`"_boxfolder_"` nor `"_fileid_"`; it is a total boolean function, so
classification never throws. -/
theorem C4_classify (s : String) :
    is_header_file s = true ↔
      (containsTag s "tmp/" = true ∧ containsTag s "HEADER" = true ∧
       containsTag s "_boxfolder_" = false ∧ containsTag s "_fileid_" = false) := by
  cases htmp : containsTag s "tmp/" <;> cases hh : containsTag s "HEADER" <;>
    cases hbf : containsTag s "_boxfolder_" <;> cases hfi : containsTag s "_fileid_" <;>
      simp [is_header_file, htmp, hh, hbf, hfi]

/-- **C10** — the claim fails on the code: the `[^_]+` site-name group
of the regex may contain slashes, so a derived output key can contain
`"tmp/"`.  At this concrete input the derivation succeeds and the
output key contains `"tmp/"`, refuting the claimed absence. -/
theorem C10_counterexample :
    generate_output_file_path
        "gs://deidentified_site_recruitment_data_prod/SiteA/tmp/tmp/B_deidentified_recruitment_data_box_folder_123456789012_file_id_1234567890123_HEADER_0.csv" =
      some "deidentified_site_recruitment_data_prod/SiteA/tmp/B_deidentified_recruitment_data_boxfolder_123456789012_fileid_1234567890123.csv" ∧
    containsTag
        "deidentified_site_recruitment_data_prod/SiteA/tmp/B_deidentified_recruitment_data_boxfolder_123456789012_fileid_1234567890123.csv"
        "tmp/" = true := by
  decide

/-- **C10 amended** — every non-null output of
`generate_output_file_path` contains the substrings `"_boxfolder_"` and
`"_fileid_"`, and therefore `is_header_file` on it is `false` (those are
forbidden tags), so a canonical output can never re-trigger reassembly;
the output may however contain `"tmp/"` (see the counterexample). -/
theorem C10_output_tags (inp out : String)
    (h : generate_output_file_path inp = some out) :
    containsTag out "_boxfolder_" = true ∧ containsTag out "_fileid_" = true ∧
    is_header_file out = false := by
  unfold generate_output_file_path at h
  rcases hs : searchHeader inp.data with _ | ⟨g1, g2, g3, g4⟩ <;> rw [hs] at h
  · exact absurd h (by simp)
  have hout : out = outputTemplate g1 g2 g3 g4 := by
    simpa using h.symm
  subst hout
  have hbox : containsTag (outputTemplate g1 g2 g3 g4) "_boxfolder_" = true := by
    simp only [containsTag, outputTemplate, String.data_append, List.append_assoc]
    apply hasInfix_append_right
    apply hasInfix_append_right
    apply hasInfix_append_right
    apply hasInfix_append_right
    exact hasInfix_append_left _ (by decide)
  have hfid : containsTag (outputTemplate g1 g2 g3 g4) "_fileid_" = true := by
    simp only [containsTag, outputTemplate, String.data_append, List.append_assoc]
    apply hasInfix_append_right
    apply hasInfix_append_right
    apply hasInfix_append_right
    apply hasInfix_append_right
    apply hasInfix_append_right
    apply hasInfix_append_right
    exact hasInfix_append_left _ (by decide)
  refine ⟨hbox, hfid, ?_⟩
  simp [is_header_file, hbox]

/-- Witness for C10: the amended theorem applied at a concrete input on
which the derivation succeeds. -/
theorem C10_witness :
    containsTag
        "deidentified_site_recruitment_data_prod/KaiserPermanente-Hawaii/KaiserPermanente-Hawaii_deidentified_recruitment_data_boxfolder_227960879930_fileid_1318226785372.csv"
        "_boxfolder_" = true ∧
    containsTag
        "deidentified_site_recruitment_data_prod/KaiserPermanente-Hawaii/KaiserPermanente-Hawaii_deidentified_recruitment_data_boxfolder_227960879930_fileid_1318226785372.csv"
        "_fileid_" = true ∧
    is_header_file
        "deidentified_site_recruitment_data_prod/KaiserPermanente-Hawaii/KaiserPermanente-Hawaii_deidentified_recruitment_data_boxfolder_227960879930_fileid_1318226785372.csv" =
      false :=
  C10_output_tags
    ("gs://" ++ exBucket ++ "/" ++ exName)
    "deidentified_site_recruitment_data_prod/KaiserPermanente-Hawaii/KaiserPermanente-Hawaii_deidentified_recruitment_data_boxfolder_227960879930_fileid_1318226785372.csv"
    (by decide)


/-- **C9** — confirmed: an event whose name is present but not
header-classified makes the engine terminate at once as a no-op — no
list, compose, or delete call is issued and the store is unchanged. -/
theorem C9_non_header_noop (df : String → Bool) (ev : Event) (st : Store) (nm : String)
    (hname : ev.name? = some nm) (hhdr : is_header_file nm = false) :
    runMain df ev st = ([], st, none) := by
  cases ev with
  | mk b? n? =>
    cases hname
    simp [runMain, hhdr]

/-- Witness for C9: the no-op theorem applied to a concrete body-file
creation event. -/
theorem C9_witness :
    runMain noFail ⟨some "bkt", some "SiteA/part_001.csv"⟩ [] = ([], [], none) :=
  C9_non_header_noop noFail ⟨some "bkt", some "SiteA/part_001.csv"⟩ [] "SiteA/part_001.csv"
    rfl (by decide)

/-- **C7 counterexample** — the claim fails on the code: an event with
no `name` field makes `main` raise an uncaught `KeyError` at the very
first field access (`file_object['name']`, line 25) — the run's result
carries the exception — instead of surfacing a classified
malformed-event error.  (The model's `PyErr` result is precisely an
unhandled exception escaping `main`.) -/
theorem C7_counterexample :
    runMain noFail ⟨some "deidentified_site_recruitment_data_prod", none⟩ [] =
      ([], [], some (.keyError "name")) := by
  decide

/-- **C7 amended** — a missing `name` field raises an uncaught
`KeyError` before any store call, with no side effects (first
conjunct); a missing `bucket` field with a header-classified name
likewise raises an uncaught `KeyError` with no side effects (second
conjunct); and a missing `bucket` field with a non-header name is not
even noticed — the run returns successfully as a no-op (third
conjunct).  Aborting is side-effect-free, but the error is an unhandled
exception, not a surfaced malformed-event error. -/
theorem C7_missing_fields (df : String → Bool) (ev : Event) (st : Store) :
    (ev.name? = none → runMain df ev st = ([], st, some (.keyError "name"))) ∧
    (∀ nm, ev.name? = some nm → is_header_file nm = true → ev.bucket? = none →
      runMain df ev st = ([], st, some (.keyError "bucket"))) ∧
    (∀ nm, ev.name? = some nm → is_header_file nm = false → ev.bucket? = none →
      runMain df ev st = ([], st, none)) := by
  cases ev with
  | mk b? n? =>
    refine ⟨?_, ?_, ?_⟩
    · intro h
      cases h
      simp [runMain]
    · intro nm hname hhdr hbk
      cases hname
      cases hbk
      simp [runMain, hhdr]
    · intro nm hname hhdr hbk
      cases hname
      cases hbk
      simp [runMain, hhdr]

/-- Witness for C7: the amended theorem applied to an event carrying
the example header name but no bucket field. -/
theorem C7_witness :
    runMain noFail ⟨none, some exName⟩ [] = ([], [], some (.keyError "bucket")) :=
  (C7_missing_fields noFail ⟨none, some exName⟩ []).2.1 exName rfl (by decide) rfl

/-- **C6 counterexample** — the claim fails on the code: on a header
event over an empty store the listing is empty and the run ends with an
uncaught `IndexError` from `blob_list[0]` in `concatenate_blobs`
(line 143) — an unclassified crash, not a reported EmptyListing
condition.  (No output is produced and nothing is deleted, which part
of the claim does hold.) -/
theorem C6_counterexample :
    runMain noFail exEvent [] =
      ([.listOp exBucket "KaiserPermanente-Hawaii/tmp"], [], some .indexError) := by
  decide

/-- **C6 amended** — whenever the staging-prefix listing is empty, the
invocation issues exactly the one list call, leaves the store
untouched, produces no output, deletes nothing, and terminates with an
uncaught `IndexError` (an unhandled exception, not a classified
EmptyListing report). -/
theorem C6_empty_listing (df : String → Bool) (ev : Event) (st : Store) (nm bk : String)
    (hname : ev.name? = some nm) (hhdr : is_header_file nm = true)
    (hbk : ev.bucket? = some bk) (hcnt : 2 ≤ partsCount bk nm)
    (hempty : listBucketBlobs bk (siteTmpFolderOf bk nm) st = []) :
    runMain df ev st = ([.listOp bk (siteTmpFolderOf bk nm)], st, some .indexError) := by
  cases ev with
  | mk b? n? =>
    cases hname
    cases hbk
    simp [runMain, hhdr, hcnt, hempty, concatenateBlobs]

/-- Witness for C6: the amended theorem applied to the example header
event over a store whose only object lies outside the staging prefix. -/
theorem C6_witness :
    runMain noFail exEvent [⟨exBucket, "OtherSite/part_000.csv", [9]⟩] =
      ([.listOp exBucket (siteTmpFolderOf exBucket exName)],
        [⟨exBucket, "OtherSite/part_000.csv", [9]⟩], some .indexError) :=
  C6_empty_listing noFail exEvent [⟨exBucket, "OtherSite/part_000.csv", [9]⟩] exName exBucket
    rfl (by decide) rfl (by decide) (by decide)

/-- **C5 counterexample** — the claim fails on the code: this header
key (site name containing an underscore) is header-classified and its
output-key derivation returns `none`, yet the engine does **not** abort
before listing: the run's operation trace contains the list call, and
the invocation dies only inside `concatenate_blobs` when the storage
client rejects the `None` target name. -/
theorem C5_counterexample :
    is_header_file
        "Site_A/tmp/Site_A_deidentified_recruitment_data_box_folder_123456789012_file_id_1234567890123_HEADER_0.csv" =
      true ∧
    generate_output_file_path
        ("deidentified_site_recruitment_data_prod/Site_A/tmp/Site_A_deidentified_recruitment_data_box_folder_123456789012_file_id_1234567890123_HEADER_0.csv") =
      none ∧
    runMain noFail
        ⟨some "deidentified_site_recruitment_data_prod",
          some "Site_A/tmp/Site_A_deidentified_recruitment_data_box_folder_123456789012_file_id_1234567890123_HEADER_0.csv"⟩
        [⟨"deidentified_site_recruitment_data_prod",
          "Site_A/tmp/Site_A_deidentified_recruitment_data_box_folder_123456789012_file_id_1234567890123_HEADER_0.csv", [0]⟩] =
      ([.listOp "deidentified_site_recruitment_data_prod" "Site_A/tmp"],
        [⟨"deidentified_site_recruitment_data_prod",
          "Site_A/tmp/Site_A_deidentified_recruitment_data_box_folder_123456789012_file_id_1234567890123_HEADER_0.csv", [0]⟩],
        some .valueError) := by
  decide

/-- **C5 amended** — when the triggering key is header-classified and
output-key derivation returns `none`, the engine still issues the list
call, then aborts with an uncaught exception before any compose or
delete call (the trace is exactly the one list operation) and the store
is unchanged.  Null is not checked; the abort happens late, by
accident. -/
theorem C5_null_derivation (df : String → Bool) (ev : Event) (st : Store) (nm bk : String)
    (hname : ev.name? = some nm) (hhdr : is_header_file nm = true)
    (hbk : ev.bucket? = some bk) (hcnt : 2 ≤ partsCount bk nm)
    (hnull : generate_output_file_path (bk ++ "/" ++ nm) = none) :
    ∃ e, runMain df ev st = ([.listOp bk (siteTmpFolderOf bk nm)], st, some e) := by
  cases ev with
  | mk b? n? =>
    cases hname
    cases hbk
    cases hbl : listBucketBlobs bk (siteTmpFolderOf bk nm) st with
    | nil =>
      exact ⟨.indexError, by simp [runMain, hhdr, hcnt, hnull, hbl, concatenateBlobs]⟩
    | cons b0 rest =>
      exact ⟨.valueError, by simp [runMain, hhdr, hcnt, hnull, hbl, concatenateBlobs]⟩

/-- Witness for C5: the amended theorem applied to the example event
(whose engine-constructed path always fails derivation). -/
theorem C5_witness :
    ∃ e, runMain noFail exEvent exStore0 =
      ([.listOp exBucket (siteTmpFolderOf exBucket exName)], exStore0, some e) :=
  C5_null_derivation noFail exEvent exStore0 exName exBucket rfl (by decide) rfl
    (by decide) (by decide)

/-- `delete_blobs` attempts every object's delete exactly once, in
input order, regardless of failures. -/
theorem deleteBlobs_ops (df : String → Bool) :
    ∀ (blobs : List Obj) (st : Store),
      (deleteBlobs df blobs st).2.2 = blobs.map (fun b => StoreOp.deleteOp b.bucket b.name) := by
  intro blobs
  induction blobs with
  | nil => intro st; rfl
  | cons b rest ih =>
    intro st
    by_cases h : df b.name <;> simp [deleteBlobs, h, ih]

/-- `delete_blobs` returns exactly the names whose delete succeeded,
in attempt order. -/
theorem deleteBlobs_names (df : String → Bool) :
    ∀ (blobs : List Obj) (st : Store),
      (deleteBlobs df blobs st).2.1 =
        (blobs.filter (fun b => !df b.name)).map (fun b => b.name) := by
  intro blobs
  induction blobs with
  | nil => intro st; rfl
  | cons b rest ih =>
    intro st
    by_cases h : df b.name <;> simp [deleteBlobs, h, ih]

/-- `delete_blobs` never touches an object outside its input list — in
particular the already-created canonical output survives. -/
theorem deleteBlobs_frame (df : String → Bool) :
    ∀ (blobs : List Obj) (st : Store) (o : Obj), o ∈ st →
      (∀ b ∈ blobs, ¬(o.bucket = b.bucket ∧ o.name = b.name)) →
      o ∈ (deleteBlobs df blobs st).1 := by
  intro blobs
  induction blobs with
  | nil => intro st o ho _; exact ho
  | cons b rest ih =>
    intro st o ho hmis
    have hob : ¬(o.bucket = b.bucket ∧ o.name = b.name) := hmis b (List.mem_cons_self b rest)
    have hrest : ∀ x ∈ rest, ¬(o.bucket = x.bucket ∧ o.name = x.name) :=
      fun x hx => hmis x (List.mem_cons_of_mem b hx)
    by_cases h : df b.name
    · simp only [deleteBlobs, if_pos h]
      exact ih st o ho hrest
    · simp only [deleteBlobs, if_neg h]
      refine ih _ o ?_ hrest
      unfold removeObj
      refine List.mem_filter.mpr ⟨ho, ?_⟩
      have hfalse : (o.bucket == b.bucket && o.name == b.name) = false := by
        rcases h1 : o.bucket == b.bucket with _ | _
        · simp [h1]
        · rcases h2 : o.name == b.name with _ | _
          · simp [h1, h2]
          · exact absurd ⟨beq_iff_eq.mp h1, beq_iff_eq.mp h2⟩ hob
      simp [hfalse]

/-- **C8** — confirmed: during cleanup every object in the list has its
delete attempted exactly once in order and a failure neither aborts the
remaining deletes nor is rethrown (first conjunct — the attempt trace
is the full input list, and `deleteBlobs` is a total function, so
per-object failures are swallowed); the returned list holds exactly the
names whose delete succeeded, in attempt order (second conjunct); and
any object not in the input list — such as the composed output — is
still in the store afterwards (third conjunct). -/
theorem C8_delete_best_effort (df : String → Bool) (blobs : List Obj) (st : Store) (o : Obj) :
    (deleteBlobs df blobs st).2.2 = blobs.map (fun b => StoreOp.deleteOp b.bucket b.name) ∧
    (deleteBlobs df blobs st).2.1 =
      (blobs.filter (fun b => !df b.name)).map (fun b => b.name) ∧
    (o ∈ st → (∀ b ∈ blobs, ¬(o.bucket = b.bucket ∧ o.name = b.name)) →
      o ∈ (deleteBlobs df blobs st).1) :=
  ⟨deleteBlobs_ops df blobs st, deleteBlobs_names df blobs st, deleteBlobs_frame df blobs st o⟩

/-- Witness for C8: the best-effort theorem applied to a two-object
cleanup in which the first delete fails, over a store also holding an
unrelated output object. -/
theorem C8_witness :
    (deleteBlobs (fun n => n == "sx") [⟨"b", "sx", [1]⟩, ⟨"b", "sy", [2]⟩]
        [⟨"b", "sx", [1]⟩, ⟨"b", "sy", [2]⟩, ⟨"b", "out", [3]⟩]).2.2 =
      ([⟨"b", "sx", [1]⟩, ⟨"b", "sy", [2]⟩] : List Obj).map
        (fun b => StoreOp.deleteOp b.bucket b.name) ∧
    (deleteBlobs (fun n => n == "sx") [⟨"b", "sx", [1]⟩, ⟨"b", "sy", [2]⟩]
        [⟨"b", "sx", [1]⟩, ⟨"b", "sy", [2]⟩, ⟨"b", "out", [3]⟩]).2.1 =
      (([⟨"b", "sx", [1]⟩, ⟨"b", "sy", [2]⟩] : List Obj).filter
          (fun b => !(fun n => n == "sx") b.name)).map (fun b => b.name) ∧
    (⟨"b", "out", [3]⟩ : Obj) ∈
      (deleteBlobs (fun n => n == "sx") [⟨"b", "sx", [1]⟩, ⟨"b", "sy", [2]⟩]
        [⟨"b", "sx", [1]⟩, ⟨"b", "sy", [2]⟩, ⟨"b", "out", [3]⟩]).1 :=
  have h := C8_delete_best_effort (fun n => n == "sx")
    ([⟨"b", "sx", [1]⟩, ⟨"b", "sy", [2]⟩] : List Obj)
    ([⟨"b", "sx", [1]⟩, ⟨"b", "sy", [2]⟩, ⟨"b", "out", [3]⟩] : Store)
    (⟨"b", "out", [3]⟩ : Obj)
  ⟨h.1, h.2.1, h.2.2 (by decide) (by decide)⟩

end GcsConcat
